import Mathlib

/-!
Shallow embedding of the hearing_support streaming audio pipeline.

The repository contains several near-duplicate Streamlit front-ends over the
same small pipeline.  The definitions below embed the signal-processing,
metering, queueing and transcription logic of the variants cited by the
claims:

- hearing_supportWeb.py            (main variant, prefix main...)
- hearing_supportWeb_ChatGPT.py    (prefix chatgpt...)
- hearing_supportWeb_GeminiFinal.py (prefix geminiFinal...)
- hearing_supportWeb_Gemini3.py    (prefix gemini3...)

Samples are modelled as real numbers (the code works in float64 after an
astype conversion); integer sample buffers are lists of integers.  External
library calls (scipy band-pass filtering, the av resampler) are modelled as
abstract function parameters or by their constructed contracts.
-/

/-- Elementwise addition of two sample buffers, as numpy array addition of
equal-shape arrays (the band-pass filtered copy has the same length as its
input). -/
noncomputable def zipAdd (a b : List ℝ) : List ℝ := List.zipWith (· + ·) a b

/-- Mean of the squared samples, as np.mean of np.square.  Division by zero
only arises for an empty buffer, which real frames never produce. -/
noncomputable def meanSquare (xs : List ℝ) : ℝ := (xs.map fun x => x ^ 2).sum / xs.length

/-- Root mean square of a sample buffer, np.sqrt of the mean square. -/
noncomputable def rmsOf (xs : List ℝ) : ℝ := Real.sqrt (meanSquare xs)

/-- One sample of np.clip with lower bound lo and upper bound hi. -/
noncomputable def npClip (lo hi x : ℝ) : ℝ := max lo (min x hi)

/-- The epsilon the main variant adds to the RMS before dividing
(hearing_supportWeb.py line 109). -/
noncomputable def agcEpsilon : ℝ := 1e-6

/-- AudioParams from hearing_supportWeb.py: overall gain, low and high band
boosts, and the AGC target RMS. -/
structure AudioParams where
  gain_factor : ℝ
  low_freq_boost : ℝ
  high_freq_boost : ℝ
  target_rms : ℝ

/-- The defaults set in AudioParams.__init__ of hearing_supportWeb.py. -/
noncomputable def AudioParams.init : AudioParams :=
  { gain_factor := 3.0, low_freq_boost := 0.0, high_freq_boost := 0.0,
    target_rms := 5000 }

/-- An av.AudioFrame as the pipeline sees it: its int16 samples, its declared
sample rate and its channel count (layout). -/
structure AVFrame where
  samples : List ℤ
  sample_rate : ℕ
  channels : ℕ
deriving DecidableEq

/-- A concrete stand-in for the scipy band-pass filter (its arguments are
data, lowcut, highcut, fs).  Used only to instantiate theorems at concrete
inputs; the claims that involve it take the filter as an abstract parameter
and hold for every filter. -/
def flatFilter : List ℝ → ℝ → ℝ → ℝ → List ℝ := fun xs _ _ _ => xs

/-- Equalizer stage of AudioProcessingThread.run in hearing_supportWeb.py
(lines 96 to 107): if a band boost is nonzero, add the band-pass filtered
copy scaled by the boost.  The main variant calls the low band with cutoffs
(20, 500) and the high band with the pre-normalized cutoffs (0.1, 0.5), both
at fs = 16000. -/
noncomputable def mainApplyBoosts (bandpass : List ℝ → ℝ → ℝ → ℝ → List ℝ)
    (p : AudioParams) (x : List ℝ) : List ℝ :=
  let x1 := if p.low_freq_boost ≠ 0 then
      zipAdd x ((bandpass x 20 500 16000).map (· * p.low_freq_boost)) else x
  if p.high_freq_boost ≠ 0 then
    zipAdd x1 ((bandpass x1 0.1 0.5 16000).map (· * p.high_freq_boost)) else x1

/-- Transform stage of AudioProcessingThread.run in hearing_supportWeb.py
(lines 88 to 118): boosts, then AGC (rms plus epsilon, scale by
target_rms / rms), then overall gain, then np.clip to [-32767, 32767]. -/
noncomputable def mainProcessFrame (bandpass : List ℝ → ℝ → ℝ → ℝ → List ℝ)
    (p : AudioParams) (frame : List ℝ) : List ℝ :=
  let boosted := mainApplyBoosts bandpass p frame
  let rms := rmsOf boosted + agcEpsilon
  let agc_gain := p.target_rms / rms
  let scaled := boosted.map (· * agc_gain)
  let amplified := scaled.map (· * p.gain_factor)
  amplified.map (npClip (-32767) 32767)

/-- The rms_after value the main variant pushes onto the volume queue
(hearing_supportWeb.py lines 121 to 122): RMS of the clipped output. -/
noncomputable def mainRmsAfter (bandpass : List ℝ → ℝ → ℝ → ℝ → List ℝ)
    (p : AudioParams) (frame : List ℝ) : ℝ :=
  rmsOf (mainProcessFrame bandpass p frame)

/-- WebRtcAudioProcessor.recv of hearing_supportWeb.py (lines 137 to 139):
put the frame on the audio queue and return the frame itself to the output
sink. -/
def mainRecv (q : List AVFrame) (frame : AVFrame) : List AVFrame × AVFrame :=
  (q ++ [frame], frame)

/-- One pass of the volume-history trim loop of hearing_supportWeb.py
(lines 190 to 193): append the dequeued value, then pop the front element
when the length exceeds 100. -/
def mainVolumeStep (hist : List ℝ) (v : ℝ) : List ℝ :=
  let h := hist ++ [v]
  if 100 < h.length then h.drop 1 else h

/-- The timeout, in seconds, of the audio_queue.get call in the processing
loops (hearing_supportWeb.py line 87, Gemini3 line 61, GeminiFinal line 90). -/
def mainGetTimeout : ℕ := 1

/-- What the processing loop reads from the queue on one iteration: either a
timeout (queue.Empty) or a frame; the Boolean records whether the per-frame
processing of that frame raises an exception. -/
inductive QueueRead where
  | timeout : QueueRead
  | frame (raises : Bool) : QueueRead
deriving DecidableEq

/-- Loop survival of AudioProcessingThread.run in hearing_supportWeb.py
(lines 84 to 125): the try block catches only queue.Empty, so a timeout
continues the loop while an exception raised during frame processing escapes
and terminates the thread.  Returns true when the loop is still alive after
the given reads. -/
def mainLoopAlive : List QueueRead → Bool
  | [] => true
  | QueueRead.timeout :: rest => mainLoopAlive rest
  | QueueRead.frame raises :: rest =>
      if raises then false else mainLoopAlive rest

/-- Loop survival of AudioProcessingThread.run in hearing_supportWeb_Gemini3.py
(lines 59 to 86): queue.Empty continues, and the broad except clause logs any
processing exception and continues, so the loop survives every read. -/
def gemini3LoopAlive : List QueueRead → Bool
  | [] => true
  | QueueRead.timeout :: rest => gemini3LoopAlive rest
  | QueueRead.frame raises :: rest =>
      if raises then gemini3LoopAlive rest else gemini3LoopAlive rest

/-- Truncation toward zero, the rounding numpy applies when casting float64
to an integer dtype. -/
noncomputable def truncTowardZero (x : ℝ) : ℤ := if 0 ≤ x then ⌊x⌋ else ⌈x⌉

/-- Two's-complement wraparound into the int16 range, the observable effect
of numpy astype(np.int16) on an out-of-range integer value. -/
def wrapInt16 (n : ℤ) : ℤ := (n + 32768) % 65536 - 32768

/-- numpy astype(np.int16) applied to one float64 value: truncate toward
zero, then wrap into the int16 range. -/
noncomputable def int16OfFloat (x : ℝ) : ℤ := wrapInt16 (truncTowardZero x)

/-- Per-frame sample processing of AudioProcessingThread.run in
hearing_supportWeb_GeminiFinal.py (lines 96 to 107): equalizer boosts, then
the overall gain, then astype(np.int16) with no clipping step.  The scipy
band-pass filter is an abstract parameter; this variant uses high-band
cutoffs (2000, 8000). -/
noncomputable def geminiFinalProcessSamples
    (bandpass : List ℝ → ℝ → ℝ → ℝ → List ℝ)
    (gain lowBoost highBoost : ℝ) (audio : List ℝ) : List ℤ :=
  let a1 := if lowBoost ≠ 0 then
      zipAdd audio ((bandpass audio 20 500 16000).map (· * lowBoost)) else audio
  let a2 := if highBoost ≠ 0 then
      zipAdd a1 ((bandpass a1 2000 8000 16000).map (· * highBoost)) else a1
  let amplified := a2.map (· * gain)
  amplified.map int16OfFloat

/-- The fixed sample rate the GeminiFinal variant configures its
KaldiRecognizer with (hearing_supportWeb_GeminiFinal.py line 87). -/
def geminiFinalRecognizerRate : ℕ := 16000

/-- The PCM data the GeminiFinal variant feeds to the recognizer
(audio_data_int16.tobytes() in run): the processed samples, still at the
input frame's declared sample rate and channel count, with no resampling or
channel conversion step. -/
noncomputable def geminiFinalRecognizerFeed
    (bandpass : List ℝ → ℝ → ℝ → ℝ → List ℝ)
    (gain lowBoost highBoost : ℝ) (f : AVFrame) : AVFrame :=
  { samples := geminiFinalProcessSamples bandpass gain lowBoost highBoost
      (f.samples.map fun s => (s : ℝ)),
    sample_rate := f.sample_rate, channels := f.channels }

/-- Python str.strip() with no argument: remove leading and trailing
whitespace characters. -/
def pyStrip (s : String) : String :=
  String.mk (((s.data.dropWhile Char.isWhitespace).reverse.dropWhile
    Char.isWhitespace).reverse)

/-- A recognition result as the engine reports it: a committed utterance
text, or a provisional best-guess-so-far text (the partial result). -/
inductive RecogResult where
  | final (text : String) : RecogResult
  | interim (text : String) : RecogResult

/-- Emission step of hearing_supportWeb_GeminiFinal.py (lines 115 to 125):
a final result is enqueued as its raw text when its stripped text is
nonempty; a provisional result is enqueued with the marker prefix when its
stripped text is nonempty; otherwise nothing is enqueued. -/
def geminiFinalEmit (q : List String) : RecogResult → List String
  | RecogResult.final t => if pyStrip t ≠ "" then q ++ [t] else q
  | RecogResult.interim t => if pyStrip t ≠ "" then q ++ ["partial:" ++ t] else q

/-- The transcription state the GeminiFinal UI drains into: the current
provisional text and the append-only history of committed texts. -/
structure TranscriptState where
  current : String
  history : List String
deriving DecidableEq

/-- Drain step of the transcription_queue loop in
hearing_supportWeb_GeminiFinal.py (lines 241 to 247): a message with the
marker prefix replaces the current provisional text with its payload; any
other message is appended to the history and the current text is cleared. -/
def geminiFinalDrainStep (s : TranscriptState) (text : String) : TranscriptState :=
  if text.startsWith "partial:" then
    { s with current := text.replace "partial:" "" }
  else
    { current := "", history := s.history ++ [text] }

/-- One rerun of the recognition-state update in
hearing_supportWeb_ChatGPT.py (lines 107 to 116), acting on the processor
fields partial_text and final_texts (the field names here avoid the literal
source spellings): a final result is stripped and, when nonempty, appended
with the provisional text cleared; an empty final changes nothing; a
provisional result always stores its stripped text. -/
structure ChatGPTRecogState where
  interimText : String
  finalTexts : List String
deriving DecidableEq

/-- The update itself; see ChatGPTRecogState. -/
def chatgptRecogUpdate (s : ChatGPTRecogState) : RecogResult → ChatGPTRecogState
  | RecogResult.final t =>
      let txt := pyStrip t
      if txt ≠ "" then { interimText := "", finalTexts := s.finalTexts ++ [txt] }
      else s
  | RecogResult.interim t => { s with interimText := pyStrip t }

/-- The configuration of the av AudioResampler the ChatGPT variant
constructs (hearing_supportWeb_ChatGPT.py lines 70 to 72): output format
s16, mono layout, 16000 Hz. -/
structure ResamplerConfig where
  rate : ℕ
  channels : ℕ

/-- The resampler instance self.resampler_16k_mono. -/
def chatgptResampler : ResamplerConfig := { rate := 16000, channels := 1 }

/-- Contract of the external av resampler: it returns a frame in its
configured rate and layout; the resampled sample content is abstract (the
convert parameter). -/
def ResamplerConfig.resample (r : ResamplerConfig)
    (convert : List ℤ → List ℤ) (f : AVFrame) : AVFrame :=
  { samples := convert f.samples, sample_rate := r.rate, channels := r.channels }

/-- The frame whose bytes the ChatGPT variant feeds to the recognizer
(hearing_supportWeb_ChatGPT.py lines 98 to 101): the input frame passed
through the 16 kHz mono resampler (the subsequent _to_int16 call is the
identity on s16 data). -/
def chatgptRecognizerFeed (convert : List ℤ → List ℤ) (f : AVFrame) : AVFrame :=
  chatgptResampler.resample convert f

/-- The audible output path of AudioProcessor.recv_audio in
hearing_supportWeb_ChatGPT.py (lines 81 to 95 and 119 to 121) for one int16
sample: normalize by 32768, multiply by the gain, clip to [-1, 1], scale by
32767 and cast to int16. -/
noncomputable def chatgptOutSample (gain : ℝ) (s : ℤ) : ℤ :=
  int16OfFloat (npClip (-1) 1 ((s : ℝ) / 32768 * gain) * 32767)

/-- The new frame recv_audio returns to the output sink: built with
av.AudioFrame.from_ndarray from the processed samples, with the layout and
sample rate copied from the input frame. -/
noncomputable def chatgptRecvAudioOut (gain : ℝ) (f : AVFrame) : AVFrame :=
  { samples := f.samples.map (chatgptOutSample gain),
    sample_rate := f.sample_rate, channels := f.channels }

/-- One rerun of the volume-history update in hearing_supportWeb_ChatGPT.py
(lines 192 to 195): append the level, then keep only the last 200 entries. -/
def chatgptVolumeStep (hist : List ℝ) (v : ℝ) : List ℝ :=
  let h := hist ++ [v]
  if 200 < h.length then h.drop (h.length - 200) else h

/-- The volume-history trim loop of the main variant keeps exactly the most
recent 100 values: folding the step over any arrival sequence from the empty
history leaves the last 100 arrivals in order. -/
theorem mainVolumeStep_foldl (vs : List ℝ) :
    vs.foldl mainVolumeStep [] = vs.drop (vs.length - 100) := by
  induction vs using List.reverseRecOn with
  | nil => simp
  | append_singleton xs x ih =>
    rw [List.foldl_append, List.foldl_cons, List.foldl_nil, ih]
    unfold mainVolumeStep
    simp only [List.length_append, List.length_drop, List.length_cons,
      List.length_nil]
    by_cases h : xs.length < 100
    · rw [if_neg (by omega)]
      have h1 : xs.length - 100 = 0 := by omega
      have h2 : xs.length + 1 - 100 = 0 := by omega
      rw [h1, h2, List.drop_zero, List.drop_zero]
    · rw [if_pos (by omega)]
      rw [List.drop_append_of_le_length (by rw [List.length_drop]; omega),
        List.drop_drop, List.drop_append_of_le_length (by omega)]
      congr 2
      omega

set_option maxRecDepth 4000 in
/-- The ChatGPT variant keeps exactly the most recent 200 values via its
slice step. -/
theorem chatgptVolumeStep_foldl (vs : List ℝ) :
    vs.foldl chatgptVolumeStep [] = vs.drop (vs.length - 200) := by
  induction vs using List.reverseRecOn with
  | nil => simp
  | append_singleton xs x ih =>
    rw [List.foldl_append, List.foldl_cons, List.foldl_nil, ih]
    unfold chatgptVolumeStep
    simp only [List.length_append, List.length_drop, List.length_cons,
      List.length_nil]
    by_cases h : xs.length < 200
    · rw [if_neg (by omega)]
      have h1 : xs.length - 200 = 0 := by omega
      have h2 : xs.length + 1 - 200 = 0 := by omega
      rw [h1, h2, List.drop_zero, List.drop_zero]
    · rw [if_pos (by omega)]
      rw [List.drop_append_of_le_length (by rw [List.length_drop]; omega),
        List.drop_drop, List.drop_append_of_le_length (by omega)]
      congr 2
      omega

/-- Enqueueing through recv only ever appends to the audio queue. -/
theorem mainRecv_foldl (q fs : List AVFrame) :
    fs.foldl (fun acc f => (mainRecv acc f).1) q = q ++ fs := by
  induction fs generalizing q with
  | nil => simp
  | cons f fs ih =>
    rw [List.foldl_cons, ih]
    simp [mainRecv]

/-- Claim C4: after any sequence of recorded RMS values, the volume-history
buffer has length at most N (100 in the main variant, 200 in the ChatGPT
variant) and holds exactly the N most recent values in arrival order, the
oldest having been evicted first. -/
theorem C4_bounded_volume_history (vs : List ℝ) :
    (vs.foldl mainVolumeStep []).length ≤ 100 ∧
    vs.foldl mainVolumeStep [] = vs.drop (vs.length - 100) ∧
    (vs.foldl chatgptVolumeStep []).length ≤ 200 ∧
    vs.foldl chatgptVolumeStep [] = vs.drop (vs.length - 200) := by
  refine ⟨?_, mainVolumeStep_foldl vs, ?_, chatgptVolumeStep_foldl vs⟩
  · rw [mainVolumeStep_foldl, List.length_drop]; omega
  · rw [chatgptVolumeStep_foldl, List.length_drop]; omega

/-- Claim C5: the current transcription is a single slot, so at most one
provisional transcript is current; after the drain loop processes any message
sequence, the current slot holds the payload of the last message when that
message is provisional, and is empty (cleared) when the last message is a
committed one, staying empty until another message arrives. -/
theorem C5_partial_final_exclusivity (s : TranscriptState)
    (msgs : List String) (m : String) :
    (List.foldl geminiFinalDrainStep s (msgs ++ [m])).current =
      (if m.startsWith "partial:" then m.replace "partial:" "" else "") ∧
    (List.foldl geminiFinalDrainStep s (msgs ++ [m])).history =
      (if m.startsWith "partial:"
        then (List.foldl geminiFinalDrainStep s msgs).history
        else (List.foldl geminiFinalDrainStep s msgs).history ++ [m]) := by
  rw [List.foldl_append, List.foldl_cons, List.foldl_nil]
  unfold geminiFinalDrainStep
  by_cases h : m.startsWith "partial:"
  · rw [if_pos h, if_pos h, if_pos h]; exact ⟨rfl, rfl⟩
  · rw [if_neg h, if_neg h, if_neg h]; exact ⟨rfl, rfl⟩

/-- Claim C6 counterexample: the audio queue of the main variant is a plain
unbounded queue.Queue, so no capacity C bounds the number of retained frames
when the producer keeps enqueueing without the consumer draining. -/
theorem C6_bounded_queue_counterexample :
    ¬ ∃ C : ℕ, ∀ fs : List AVFrame,
        (fs.foldl (fun acc f => (mainRecv acc f).1) []).length ≤ C := by
  rintro ⟨C, h⟩
  have hc := h (List.replicate (C + 1)
    { samples := [0], sample_rate := 48000, channels := 1 })
  rw [mainRecv_foldl] at hc
  simp at hc

/-- Claim C6 amended: the frame queue is unbounded FIFO; enqueueing through
recv never blocks and never drops, every enqueued frame is retained in
arrival order until consumed, and a further enqueue appends at the tail. -/
theorem C6_unbounded_fifo_retention (fs : List AVFrame) (f : AVFrame) :
    fs.foldl (fun acc g => (mainRecv acc g).1) [] = fs ∧
    (mainRecv (fs.foldl (fun acc g => (mainRecv acc g).1) []) f).1 = fs ++ [f] := by
  have h := mainRecv_foldl [] fs
  rw [List.nil_append] at h
  exact ⟨h, by rw [h]; rfl⟩

/-- Claim C7: the main variant catches only queue.Empty, so a timeout keeps
the loop alive but a frame whose processing raises kills the thread, while
the Gemini3 variant survives the same raising frame and continues to later
frames; the queue read uses a one second timeout. -/
theorem C7_main_loop_dies_on_processing_error :
    mainLoopAlive [QueueRead.timeout, QueueRead.frame true] = false ∧
    mainLoopAlive [QueueRead.timeout] = true ∧
    gemini3LoopAlive
      [QueueRead.timeout, QueueRead.frame true, QueueRead.frame false] = true ∧
    mainGetTimeout = 1 := by
  refine ⟨rfl, rfl, rfl, rfl⟩

/-- Claim C9: a recognition result whose text is empty or whitespace-only is
suppressed: the GeminiFinal emitter enqueues nothing for it (final or
provisional), the ChatGPT state keeps its history and provisional text
unchanged on such a final, and on such a provisional the ChatGPT state
stores the empty string (never a whitespace-only one) with its history
unchanged. -/
theorem C9_whitespace_results_suppressed (q : List String)
    (s : ChatGPTRecogState) (t : String) (h : pyStrip t = "") :
    geminiFinalEmit q (RecogResult.final t) = q ∧
    geminiFinalEmit q (RecogResult.interim t) = q ∧
    chatgptRecogUpdate s (RecogResult.final t) = s ∧
    (chatgptRecogUpdate s (RecogResult.interim t)).interimText = "" ∧
    (chatgptRecogUpdate s (RecogResult.interim t)).finalTexts = s.finalTexts := by
  unfold geminiFinalEmit chatgptRecogUpdate
  simp [h]

/-- Witness for claim C9 at the concrete whitespace-only text. -/
theorem C9_whitespace_results_suppressed_witness :
    (pyStrip "  " = "") ∧
    (geminiFinalEmit ["ok"] (RecogResult.final "  ") = ["ok"] ∧
      geminiFinalEmit ["ok"] (RecogResult.interim "  ") = ["ok"] ∧
      chatgptRecogUpdate ⟨"x", ["y"]⟩ (RecogResult.final "  ") = ⟨"x", ["y"]⟩ ∧
      (chatgptRecogUpdate ⟨"x", ["y"]⟩ (RecogResult.interim "  ")).interimText = "" ∧
      (chatgptRecogUpdate ⟨"x", ["y"]⟩
        (RecogResult.interim "  ")).finalTexts = ["y"]) :=
  ⟨by decide, C9_whitespace_results_suppressed ["ok"] ⟨"x", ["y"]⟩ "  " (by decide)⟩

/-- With both band boosts zero the equalizer stage is the identity. -/
theorem mainApplyBoosts_zero (bp : List ℝ → ℝ → ℝ → ℝ → List ℝ)
    (p : AudioParams) (x : List ℝ)
    (hl : p.low_freq_boost = 0) (hh : p.high_freq_boost = 0) :
    mainApplyBoosts bp p x = x := by
  unfold mainApplyBoosts
  simp [hl, hh]

/-- Mean square of a constant buffer of positive length. -/
theorem meanSquare_replicate (n : ℕ) (a : ℝ) (hn : 0 < n) :
    meanSquare (List.replicate n a) = a ^ 2 := by
  unfold meanSquare
  rw [List.map_replicate, List.sum_replicate, List.length_replicate,
    nsmul_eq_mul]
  have hne : (n : ℝ) ≠ 0 := Nat.cast_ne_zero.mpr hn.ne'
  field_simp

/-- RMS of a constant buffer of positive length is the absolute amplitude. -/
theorem rmsOf_replicate (n : ℕ) (a : ℝ) (hn : 0 < n) :
    rmsOf (List.replicate n a) = |a| := by
  unfold rmsOf
  rw [meanSquare_replicate n a hn, Real.sqrt_sq_eq_abs]

/-- Clipping leaves an in-range value unchanged. -/
theorem npClip_eq_self (lo hi x : ℝ) (h1 : lo ≤ x) (h2 : x ≤ hi) :
    npClip lo hi x = x := by
  unfold npClip
  rw [min_eq_left h2, max_eq_right h1]

/-- The clipped value always lies within the symmetric bound. -/
theorem npClip_abs_le (B x : ℝ) (hB : 0 ≤ B) : |npClip (-B) B x| ≤ B := by
  unfold npClip
  rw [abs_le]
  exact ⟨le_max_left _ _, max_le (by linarith) (min_le_right x B)⟩

/-- The mean square of a buffer whose samples are bounded by B in absolute
value is at most B squared. -/
theorem meanSquare_le_sq (xs : List ℝ) (B : ℝ) (hB : 0 ≤ B)
    (h : ∀ x ∈ xs, |x| ≤ B) : meanSquare xs ≤ B ^ 2 := by
  unfold meanSquare
  rcases Nat.eq_zero_or_pos xs.length with h0 | hpos
  · rw [h0]
    simp
    positivity
  · rw [div_le_iff (by exact_mod_cast hpos)]
    have hsum : (xs.map fun x => x ^ 2).sum ≤ (xs.map fun x => x ^ 2).length • (B ^ 2) := by
      apply List.sum_le_card_nsmul
      intro y hy
      rw [List.mem_map] at hy
      obtain ⟨x, hx, rfl⟩ := hy
      calc x ^ 2 = |x| ^ 2 := (sq_abs x).symm
        _ ≤ B ^ 2 := by
            apply pow_le_pow_left (abs_nonneg x) (h x hx)
    rw [List.length_map, nsmul_eq_mul] at hsum
    calc (xs.map fun x => x ^ 2).sum ≤ (xs.length : ℝ) * B ^ 2 := hsum
      _ = B ^ 2 * xs.length := by ring

/-- The RMS of a buffer whose samples are bounded by B in absolute value is
nonnegative and at most B. -/
theorem rmsOf_bounds (xs : List ℝ) (B : ℝ) (hB : 0 ≤ B)
    (h : ∀ x ∈ xs, |x| ≤ B) : 0 ≤ rmsOf xs ∧ rmsOf xs ≤ B := by
  refine ⟨Real.sqrt_nonneg _, ?_⟩
  unfold rmsOf
  calc Real.sqrt (meanSquare xs) ≤ Real.sqrt (B ^ 2) :=
        Real.sqrt_le_sqrt (meanSquare_le_sq xs B hB h)
    _ = B := Real.sqrt_sq hB

/-- Truncation toward zero keeps a value inside a symmetric integer bound. -/
theorem truncTowardZero_abs_le (x : ℝ) (B : ℤ) (hB : 0 ≤ B)
    (h : |x| ≤ (B : ℝ)) :
    -B ≤ truncTowardZero x ∧ truncTowardZero x ≤ B := by
  rw [abs_le] at h
  unfold truncTowardZero
  by_cases hx : 0 ≤ x
  · rw [if_pos hx]
    constructor
    · calc -B ≤ 0 := by omega
        _ = ⌊(0 : ℝ)⌋ := by simp
        _ ≤ ⌊x⌋ := Int.floor_mono hx
    · calc ⌊x⌋ ≤ ⌊(B : ℝ)⌋ := Int.floor_mono h.2
        _ = B := Int.floor_intCast B
  · rw [if_neg hx]
    push_neg at hx
    constructor
    · calc -B = ⌈((-B : ℤ) : ℝ)⌉ := (Int.ceil_intCast _).symm
        _ ≤ ⌈x⌉ := Int.ceil_mono (by push_cast; linarith [h.1])
    · calc ⌈x⌉ ≤ ⌈(0 : ℝ)⌉ := Int.ceil_mono hx.le
        _ = 0 := by simp
        _ ≤ B := hB

/-- The int16 wraparound is the identity on the representable range. -/
theorem wrapInt16_eq_self (n : ℤ) (h1 : -32768 ≤ n) (h2 : n ≤ 32767) :
    wrapInt16 n = n := by
  unfold wrapInt16
  rw [Int.emod_eq_of_lt (by omega) (by omega)]
  omega

/-- Casting a float already within the int16 range to int16 truncates
toward zero without wrapping. -/
theorem int16OfFloat_in_range (x : ℝ) (h : |x| ≤ 32767) :
    -32767 ≤ int16OfFloat x ∧ int16OfFloat x ≤ 32767 := by
  have hb := truncTowardZero_abs_le x 32767 (by norm_num) (by exact_mod_cast h)
  unfold int16OfFloat
  rw [wrapInt16_eq_self _ (by omega) (by omega)]
  exact hb

/-- Parameter snapshot with both band boosts zero, gain G and target T, as
read by the processing thread when the boost sliders sit at their default
zero positions. -/
noncomputable def zeroBoostParams (G T : ℝ) : AudioParams :=
  { gain_factor := G, low_freq_boost := 0, high_freq_boost := 0,
    target_rms := T }

/-- With zero boosts and a constant nonempty input, the transform scales the
amplitude by target over (amplitude plus epsilon) and then by the gain, and
the clip stage is inert when the scaled value is within range. -/
theorem mainProcessFrame_replicate (bp : List ℝ → ℝ → ℝ → ℝ → List ℝ)
    (n : ℕ) (a G T : ℝ) (hn : 0 < n)
    (hin : |a * (T / (|a| + agcEpsilon)) * G| ≤ 32767) :
    mainProcessFrame bp (zeroBoostParams G T) (List.replicate n a) =
      List.replicate n (a * (T / (|a| + agcEpsilon)) * G) := by
  unfold mainProcessFrame zeroBoostParams
  rw [mainApplyBoosts_zero bp _ _ rfl rfl]
  simp only [List.map_replicate]
  rw [rmsOf_replicate n a hn]
  congr 1
  have h := abs_le.mp hin
  exact npClip_eq_self _ _ _ h.1 h.2

/-- Claim C1 (amended): with gain 1, zero boosts, a constant amplitude of
magnitude at least 1 and a positive target RMS no greater than the clip
boundary 32767, the output RMS of the transform is within five percent of
the target. -/
theorem C1_agc_rms_within_tolerance (bp : List ℝ → ℝ → ℝ → ℝ → List ℝ)
    (n : ℕ) (a T : ℝ) (hn : 0 < n) (ha : 1 ≤ |a|) (hT0 : 0 < T)
    (hT : T ≤ 32767) :
    |mainRmsAfter bp (zeroBoostParams 1 T) (List.replicate n a) - T| ≤
      0.05 * T := by
  have heps1 : 0 < agcEpsilon := by unfold agcEpsilon; norm_num
  have heps2 : agcEpsilon ≤ 1 / 20 := by unfold agcEpsilon; norm_num
  have hden : 0 < |a| + agcEpsilon := by linarith
  have hdiv : 0 < T / (|a| + agcEpsilon) := div_pos hT0 hden
  have hvabs : |a * (T / (|a| + agcEpsilon)) * 1| =
      |a| * T / (|a| + agcEpsilon) := by
    rw [mul_one, abs_mul, abs_of_pos hdiv, mul_div_assoc]
  have hle : |a| * T / (|a| + agcEpsilon) ≤ T := by
    rw [div_le_iff hden]
    nlinarith [mul_pos hT0 heps1]
  have key : (0:ℝ) ≤ 0.05 * |a| - 0.95 * agcEpsilon := by linarith
  have h95 : 0.95 * T ≤ |a| * T / (|a| + agcEpsilon) := by
    rw [le_div_iff hden]
    nlinarith [mul_nonneg hT0.le key]
  unfold mainRmsAfter
  rw [mainProcessFrame_replicate bp n a 1 T hn (by rw [hvabs]; linarith),
    rmsOf_replicate n _ hn, hvabs]
  rw [abs_of_nonpos (by linarith)]
  linarith

/-- Witness for claim C1 at the concrete example of the specification:
constant amplitude 1000, target 5000, gain 1. -/
theorem C1_agc_rms_within_tolerance_witness :
    ((0:ℕ) < 1 ∧ 1 ≤ |(1000:ℝ)| ∧ (0:ℝ) < 5000 ∧ (5000:ℝ) ≤ 32767) ∧
    |mainRmsAfter flatFilter (zeroBoostParams 1 5000)
      (List.replicate 1 (1000:ℝ)) - 5000| ≤ 0.05 * 5000 :=
  ⟨⟨by norm_num, by norm_num, by norm_num, by norm_num⟩,
    C1_agc_rms_within_tolerance flatFilter 1 1000 5000 (by norm_num)
      (by norm_num) (by norm_num) (by norm_num)⟩

/-- Claim C1 counterexample: with gain 1, zero boosts and constant amplitude
1000, a configured target RMS of 50000 (within the slider range) drives every
scaled sample past the clip boundary, so the output RMS is 32767, far more
than five percent away from the target. -/
theorem C1_agc_claim_counterexample :
    ¬ (|mainRmsAfter flatFilter (zeroBoostParams 1 50000)
      (List.replicate 1 (1000:ℝ)) - 50000| ≤ 0.05 * 50000) := by
  have heps : agcEpsilon = 1 / 1000000 := by unfold agcEpsilon; norm_num
  have hden : (0:ℝ) < 1000 + agcEpsilon := by rw [heps]; norm_num
  have hval : (32767:ℝ) ≤ 1000 * ((50000:ℝ) / (1000 + agcEpsilon)) * 1 := by
    rw [mul_one, ← mul_div_assoc, le_div_iff hden, heps]
    norm_num
  have hproc : mainProcessFrame flatFilter (zeroBoostParams 1 50000)
      (List.replicate 1 (1000:ℝ)) = List.replicate 1 (32767:ℝ) := by
    unfold mainProcessFrame zeroBoostParams
    rw [mainApplyBoosts_zero _ _ _ rfl rfl]
    simp only [List.map_replicate]
    rw [rmsOf_replicate 1 1000 one_pos,
      (by norm_num : |(1000:ℝ)| = 1000)]
    congr 1
    unfold npClip
    rw [min_eq_right (by linarith [hval]), max_eq_right (by norm_num)]
  unfold mainRmsAfter
  rw [hproc, rmsOf_replicate 1 _ one_pos,
    (by norm_num : |(32767:ℝ)| = 32767), abs_sub_comm,
    abs_of_nonneg (by norm_num)]
  norm_num

/-- A concrete 48 kHz stereo frame used to instantiate theorems. -/
def testFrame : AVFrame :=
  { samples := [20000], sample_rate := 48000, channels := 2 }

/-- Claim C10: every value the main variant pushes onto the volume queue is
the RMS of the clipped output, hence nonnegative and at most the clip
boundary 32767, for every filter, every parameter setting and every nonempty
frame. -/
theorem C10_volume_values_in_range (bp : List ℝ → ℝ → ℝ → ℝ → List ℝ)
    (p : AudioParams) (frame : List ℝ) (h : frame ≠ []) :
    0 ≤ mainRmsAfter bp p frame ∧ mainRmsAfter bp p frame ≤ 32767 := by
  unfold mainRmsAfter mainProcessFrame
  apply rmsOf_bounds _ 32767 (by norm_num)
  intro x hx
  simp only [List.mem_map] at hx
  obtain ⟨y, _, rfl⟩ := hx
  exact npClip_abs_le 32767 y (by norm_num)

/-- Witness for claim C10 at a concrete nonempty frame with the default
parameters. -/
theorem C10_volume_values_in_range_witness :
    ([(1000:ℝ)] ≠ []) ∧
    (0 ≤ mainRmsAfter flatFilter AudioParams.init [(1000:ℝ)] ∧
      mainRmsAfter flatFilter AudioParams.init [(1000:ℝ)] ≤ 32767) :=
  ⟨by simp,
    C10_volume_values_in_range flatFilter AudioParams.init [(1000:ℝ)] (by simp)⟩

/-- Claim C3 counterexample: the main variant's recv hands the output sink
the exact input frame, even though the transform stage changes the samples
(at the default parameters a constant 1000 sample becomes about 15000), so
the delivered frame is neither transformed nor newly constructed. -/
theorem C3_output_passthrough_counterexample :
    (mainRecv [] testFrame).2 = testFrame ∧
    mainProcessFrame flatFilter AudioParams.init [(1000:ℝ)] ≠ [(1000:ℝ)] := by
  refine ⟨rfl, ?_⟩
  have hinit : AudioParams.init = zeroBoostParams 3.0 5000 := by
    unfold AudioParams.init zeroBoostParams
    norm_num
  have heps : agcEpsilon = 1 / 1000000 := by unfold agcEpsilon; norm_num
  have habs : |(1000:ℝ)| = 1000 := by norm_num
  have hden : (0:ℝ) < 1000 + agcEpsilon := by rw [heps]; norm_num
  have hform : (1000:ℝ) * (5000 / (|(1000:ℝ)| + agcEpsilon)) * 3.0 =
      15000000 / (1000 + agcEpsilon) := by rw [habs]; ring
  have hle : 15000000 / (1000 + agcEpsilon) ≤ (32767:ℝ) := by
    rw [div_le_iff hden, heps]
    norm_num
  have hge : (14000:ℝ) ≤ 15000000 / (1000 + agcEpsilon) := by
    rw [le_div_iff hden, heps]
    norm_num
  rw [hinit, show [(1000:ℝ)] = List.replicate 1 (1000:ℝ) from rfl,
    mainProcessFrame_replicate flatFilter 1 1000 3.0 5000 one_pos
      (by rw [hform, abs_of_nonneg (by linarith)]; exact hle)]
  simp only [List.replicate_one, ne_eq, List.cons.injEq, and_true]
  rw [hform]
  intro hcontra
  linarith

/-- Claim C3 (amended, ChatGPT variant): recv_audio returns a newly
constructed frame whose samples are the gain-scaled, clipped input samples:
same sample count, same channel layout, same sample rate, and every output
sample within the int16 boundary values (no wraparound). -/
theorem C3_chatgpt_returns_new_transformed_frame (gain : ℝ) (f : AVFrame) :
    (chatgptRecvAudioOut gain f).sample_rate = f.sample_rate ∧
    (chatgptRecvAudioOut gain f).channels = f.channels ∧
    (chatgptRecvAudioOut gain f).samples.length = f.samples.length ∧
    ∀ s ∈ (chatgptRecvAudioOut gain f).samples, -32767 ≤ s ∧ s ≤ 32767 := by
  refine ⟨rfl, rfl, by simp [chatgptRecvAudioOut], ?_⟩
  intro s hs
  simp only [chatgptRecvAudioOut, List.mem_map] at hs
  obtain ⟨y, _, rfl⟩ := hs
  unfold chatgptOutSample
  apply int16OfFloat_in_range
  have h1 : |npClip (-1) 1 ((y:ℝ) / 32768 * gain)| ≤ 1 :=
    npClip_abs_le 1 _ (by norm_num)
  calc |npClip (-1) 1 ((y:ℝ) / 32768 * gain) * 32767|
      = |npClip (-1) 1 ((y:ℝ) / 32768 * gain)| * 32767 := by
        rw [abs_mul, (by norm_num : |(32767:ℝ)| = 32767)]
    _ ≤ 1 * 32767 := mul_le_mul_of_nonneg_right h1 (by norm_num)
    _ = 32767 := by norm_num

/-- The numpy int16 cast of the amplified value 60000 wraps to -5536. -/
theorem int16OfFloat_60000 : int16OfFloat (60000:ℝ) = -5536 := by
  unfold int16OfFloat truncTowardZero
  rw [if_pos (by norm_num),
    (by norm_num : (60000:ℝ) = ((60000:ℤ) : ℝ)), Int.floor_intCast]
  unfold wrapInt16
  decide

/-- Claim C2: the GeminiFinal variant converts the amplified float data with
astype(np.int16) and no clipping, so the sample 20000 amplified by gain 3.0
wraps around to -5536 instead of being clamped at the boundary value 32767. -/
theorem C2_geminiFinal_conversion_wraps :
    geminiFinalProcessSamples flatFilter 3.0 0 0 [(20000:ℝ)] = [-5536] ∧
    npClip (-32767) 32767 ((20000:ℝ) * 3.0) = 32767 ∧
    ((-5536:ℤ) ≠ 32767) := by
  refine ⟨?_, ?_, by decide⟩
  · unfold geminiFinalProcessSamples
    norm_num
    exact int16OfFloat_60000
  · unfold npClip
    rw [min_eq_right (by norm_num), max_eq_right (by norm_num)]

/-- Claim C8: the ChatGPT variant resamples every frame to 16 kHz mono
before feeding the recognizer, while the GeminiFinal variant feeds the
processed bytes at the frame's original rate and channel count to a
recognizer configured for 16000 with no conversion step: a 48 kHz stereo
frame reaches it as 48 kHz stereo. -/
theorem C8_recognizer_feed_formats :
    (chatgptRecognizerFeed id testFrame).sample_rate = 16000 ∧
    (chatgptRecognizerFeed id testFrame).channels = 1 ∧
    (geminiFinalRecognizerFeed flatFilter 3.0 0 0 testFrame).sample_rate =
      48000 ∧
    (geminiFinalRecognizerFeed flatFilter 3.0 0 0 testFrame).channels = 2 ∧
    geminiFinalRecognizerRate = 16000 ∧
    (geminiFinalRecognizerFeed flatFilter 3.0 0 0 testFrame).sample_rate ≠
      geminiFinalRecognizerRate :=
  ⟨rfl, rfl, rfl, rfl, rfl, by decide⟩
